import Mathlib

/-!
Verification development for the XeriaCO backend job-orchestration engine.

Shallow embedding of:
- admission control and run lifecycle of the pipeline orchestrator
  (routes/pipeline: POST /run, executePipeline; cron scheduled run),
- the six-stage pipeline body with its per-stage try/catch isolation,
- validation & scoring of candidate products (stage 4),
- TrendScout.scoreProduct,
- SocialPoster cooldown gates and forced posting,
- MarketingOrchestrator content approval / rejection / regeneration.

Conventions: JS numbers are embedded as `Rat` (database numeric fields) or
`Nat` (counters, epoch-millisecond timestamps); fallible external calls are
`Except String` values supplied by an environment record; object stores are
association lists keyed by numeric ids.  Wall-clock fields that no claim
reads (startedAt, completedAt, durationMs) and console-only logging are
omitted; the run record's own `logs` array is kept.
-/

namespace Admission

/-- Status enum of a PipelineRun (`queued | running | completed | failed`). -/
inductive RStatus
  | queued
  | running
  | completed
  | failed
  deriving DecidableEq, Repr

/-- A run is active when its status is `queued` or `running`
    (the `$in: ['queued','running']` admission query). -/
def RStatus.isActive : RStatus → Bool
  | .queued => true
  | .running => true
  | _ => false

/-- The slice of a PipelineRun record that admission control reads. -/
structure RRun where
  runId : Nat
  status : RStatus
  deriving DecidableEq, Repr

/-- The PipelineRun collection. -/
structure Store where
  runs : List RRun
  deriving DecidableEq, Repr

/-- The query `PipelineRun.findOne({ status: { $in: ['queued', 'running'] } })`. -/
def findActive (s : Store) : Option RRun :=
  s.runs.find? (fun r => r.status.isActive)

/-- Outcome of a start-run request: either a new run was created, or a 409
    Conflict response carrying the active run's `runId`. -/
inductive StartOutcome
  | started (runId : Nat)
  | conflict (activeId : Nat)
  deriving DecidableEq, Repr

/-- Admission control shared by POST /api/pipeline/run (creates the run in
    `running`) and the cron scheduler (creates it in `queued`): query for an
    active run; on hit return 409 with the active run's id and create
    nothing; otherwise create the new record. -/
def startRun (s : Store) (newId : Nat) (initial : RStatus) : StartOutcome × Store :=
  match findActive s with
  | some active => (.conflict active.runId, s)
  | none => (.started newId, ⟨s.runs ++ [⟨newId, initial⟩]⟩)

/-- The OpenClaw `run_pipeline` agent command: creates a new PipelineRun in
    `running` (`triggeredBy: 'openclaw'`) and saves it with **no**
    active-run query, returning `{started: true, runId}` unconditionally. -/
def openclawStart (s : Store) (newId : Nat) : Store :=
  ⟨s.runs ++ [⟨newId, .running⟩]⟩

/-- Serialized events against the run store: an admission-checked start-run
    trigger (route creates `running`, cron creates `queued`); the unchecked
    OpenClaw `run_pipeline` agent command; `executePipeline` switching its
    still-active run to `running`; `executePipeline` finishing its run as
    `completed` or `failed`. -/
inductive Ev
  | start (newId : Nat) (asQueued : Bool)
  | agentStart (newId : Nat)
  | markRunning (id : Nat)
  | finish (id : Nat) (failed : Bool)

/-- One serialized event applied to the store.  `markRunning` only acts on a
    still-active run (the orchestrator sets `running` at the start of
    `executePipeline`, on the record it just created; terminal records are
    never reactivated). -/
def step (s : Store) : Ev → Store
  | .start newId asQueued =>
      (startRun s newId (if asQueued then .queued else .running)).2
  | .agentStart newId => openclawStart s newId
  | .markRunning id =>
      ⟨s.runs.map (fun r =>
        if r.runId == id && r.status.isActive then { r with status := .running } else r)⟩
  | .finish id failed =>
      ⟨s.runs.map (fun r =>
        if r.runId == id then { r with status := if failed then .failed else .completed } else r)⟩

/-- Whether an event goes through the read-then-create admission check
    (every start-run path except the OpenClaw agent command). -/
def Ev.checked : Ev → Bool
  | .agentStart _ => false
  | _ => true

/-- Replay a serialized event sequence from the empty store. -/
def replay (evs : List Ev) : Store :=
  evs.foldl step ⟨[]⟩

/-- Number of runs currently in `queued`/`running`. -/
def activeCount (s : Store) : Nat :=
  s.runs.countP (fun r => r.status.isActive)

end Admission

namespace Pipeline

/-- The `product.supplier` sub-document (only the url is read by validation). -/
structure Supplier where
  url : Option String := none
  deriving DecidableEq, Repr

/-- The `product.pipeline` sub-document. -/
structure PipeInfo where
  approved : Bool := false
  rejectionReason : String := ""
  researchScore : Rat := 0
  runId : Option String := none
  approvedAt : Bool := false
  deriving DecidableEq, Repr

/-- The slice of a catalog Product document that the pipeline reads/writes.
    `images` holds image urls; `status : Option String` models the Mongo
    field with `none` for missing/null. -/
structure Product where
  pid : Nat
  title : String := ""
  isActive : Bool := true
  costUsd : Rat := 0
  costAud : Rat := 0
  sellingPriceAud : Rat := 0
  comparePriceAud : Rat := 0
  profitMarginPercent : Rat := 0
  featuredImage : String := ""
  images : List String := []
  category : String := ""
  supplier : Supplier := {}
  pipeline : PipeInfo := {}
  woocommerceProductId : Option String := none
  status : Option String := none
  shopifyStatus : Option String := none
  deriving DecidableEq, Repr

/-- A product as returned by `trendScout.scan()`. -/
structure Discovered where
  name : String := ""
  source : String := ""
  costUsd : Rat := 0
  costAud : Rat := 0
  image : String := ""
  category : String := ""
  trendScore : Rat := 0
  supplier : Supplier := {}
  deriving DecidableEq, Repr

/-- One entry of `run.results.errors`. -/
structure StageError where
  stage : String
  message : String
  deriving DecidableEq, Repr

/-- The `run.results` accumulator. -/
structure Results where
  productsDiscovered : Nat := 0
  productsValidated : Nat := 0
  productsRejected : Nat := 0
  productsListed : Nat := 0
  productsAutoListed : Nat := 0
  errors : List StageError := []
  deriving DecidableEq, Repr

/-- The PipelineRun record (timestamps omitted, `logs` kept as messages). -/
structure Run where
  runId : String
  status : String := "running"
  results : Results := {}
  logs : List String := []
  deriving DecidableEq, Repr

/-- Outcomes of every external call `executePipeline` makes.  `runSave` is
    the shared outcome of each `run.save()`, `productSave` of each
    `product.save()`; `createListing` is `wooCommerceService.createProduct`
    keyed by the product id. -/
structure Env where
  scan : Except String (List Discovered) := .ok []
  autoSource : Except String Nat := .ok 0
  bulkEnrich : Except String Nat := .ok 0
  createListing : Nat → Except String Nat := fun _ => .ok 0
  airtableSync : Except String Unit := .ok ()
  bridgeNotify : Except String Unit := .ok ()
  runSave : Except String Unit := .ok ()
  productSave : Except String Unit := .ok ()
  maxProducts : Option Nat := none

/-- In-memory run object + persisted product collection + a trace of the
    external-call sites reached ("scan", "autoSource", "bulkEnrich",
    "validate", "listingQuery", "airtable", "notify"). -/
structure St where
  run : Run
  db : List Product
  calls : List String := []
  deriving DecidableEq, Repr

def pushLog (s : St) (m : String) : St :=
  { s with run := { s.run with logs := s.run.logs ++ [m] } }

def pushError (s : St) (stage msg : String) : St :=
  { s with run :=
    { s.run with results :=
      { s.run.results with errors := s.run.results.errors ++ [⟨stage, msg⟩] } } }

def callMark (s : St) (c : String) : St :=
  { s with calls := s.calls ++ [c] }

def setStatus (s : St) (st : String) : St :=
  { s with run := { s.run with status := st } }

/-- Persisting the run, `await run.save()`: a throw escapes the stage try/catch blocks. -/
def saveRun (env : Env) (s : St) : Except (String × St) St :=
  match env.runSave with
  | .ok _ => .ok s
  | .error m => .error (m, s)

/-- Replace the stored product with the same id (`product.save()`). -/
def dbUpdate (db : List Product) (p : Product) : List Product :=
  db.map (fun q => if q.pid == p.pid then p else q)

def maxOr (o : Option Nat) (d : Nat) : Nat := o.getD d

/-- Next fresh product id for documents inserted during stage 1. -/
def nextPid (db : List Product) : Nat :=
  db.foldl (fun m p => max m p.pid) 0 + 1

/-- The `new Product({...})` document built from a discovered item (stage 1 save loop). -/
def mkProduct (d : Discovered) (pid : Nat) : Product :=
  { pid := pid
    title := d.name
    costUsd := d.costUsd
    costAud := if d.costAud ≠ 0 then d.costAud else d.costUsd
    supplier := d.supplier
    featuredImage := ""
    images := if d.image ≠ "" then [d.image] else []
    category := d.category
    isActive := true
    pipeline := { researchScore := d.trendScore } }

/-- Stage-1 save loop: each `newProduct.save()` has its own try/catch
    (failures are only logged, the loop continues). -/
def saveDiscovered (env : Env) (s : St) : List Discovered → St
  | [] => s
  | d :: rest =>
      match env.productSave with
      | .ok _ =>
          saveDiscovered env { s with db := s.db ++ [mkProduct d (nextPid s.db)] } rest
      | .error _ => saveDiscovered env s rest

-- ------------------------------------------------------------
-- Stage 4: validation & scoring (the per-candidate decision)
-- ------------------------------------------------------------

/-- JS truthiness of `product.supplier?.url`. -/
def supplierTruthy : Option String → Bool
  | none => false
  | some u => u ≠ ""

/-- Rendering of `value.toFixed(1)` used in the low-margin rejection message: the margin
    rounded to one decimal digit, rendered over a denominator of 10. -/
def toFixed1 (q : Rat) : String :=
  let scaled : Int := (q * 10 + 1 / 2).floor
  toString (scaled / 10) ++ "." ++ toString (scaled % 10).natAbs

/-- Decision taken by the stage-4 loop body for one candidate. -/
inductive Verdict
  | reject (reason : String)
  | approve
  | silentReject
  deriving DecidableEq, Repr

/-- The stage-4 per-candidate decision chain, in source order:
    cost check, margin check, supplier check, then
    `researchScore >= 30 || profitMarginPercent >= 35`. -/
def classify (p : Product) : Verdict :=
  if p.costUsd ≤ 0 then .reject "No cost data"
  else if p.profitMarginPercent < 20 then
    .reject ("Low margin: " ++ toFixed1 p.profitMarginPercent ++ "%")
  else if ¬ supplierTruthy p.supplier.url then .reject "No supplier found"
  else if 30 ≤ p.pipeline.researchScore ∨ 35 ≤ p.profitMarginPercent then .approve
  else .silentReject

/-- Mutation applied when the verdict is reached (rejections write
    `rejectionReason`; approvals set `approved/approvedAt/runId`; the
    silent rejection mutates nothing and saves nothing). -/
def applyVerdict (runId : String) (p : Product) : Verdict → Product
  | .reject reason => { p with pipeline := { p.pipeline with rejectionReason := reason } }
  | .approve =>
      { p with pipeline :=
        { p.pipeline with approved := true, approvedAt := true, runId := some runId } }
  | .silentReject => p

/-- Stage-4 candidate query:
    `{'pipeline.approved': false, 'pipeline.rejectionReason': '',
      isActive: true, costUsd: {$gt: 0}}` limited to maxProducts. -/
def stage4Candidates (db : List Product) (maxP : Nat) : List Product :=
  (db.filter (fun p =>
    !p.pipeline.approved && (p.pipeline.rejectionReason == "")
      && p.isActive && decide (0 < p.costUsd))).take maxP

/-- Stage-4 loop over the candidate snapshot.  The `product.save()` on the
    mutating branches is *not* inside any try/catch, so a save failure
    escapes to the run-level catch. -/
def validateFold (env : Env) (runId : String) :
    List Product → St × Nat × Nat → Except (String × St) (St × Nat × Nat)
  | [], acc => .ok acc
  | p :: rest, (s, v, r) =>
      match classify p with
      | .reject reason =>
          match env.productSave with
          | .ok _ =>
              validateFold env runId rest
                ({ s with db := dbUpdate s.db (applyVerdict runId p (.reject reason)) }, v, r + 1)
          | .error m => .error (m, s)
      | .approve =>
          match env.productSave with
          | .ok _ =>
              validateFold env runId rest
                ({ s with db := dbUpdate s.db (applyVerdict runId p .approve) }, v + 1, r)
          | .error m => .error (m, s)
      | .silentReject => validateFold env runId rest (s, v, r + 1)

def setValidated (s : St) (v r : Nat) : St :=
  { s with run := { s.run with results :=
    { s.run.results with productsValidated := v, productsRejected := r } } }

-- ------------------------------------------------------------
-- Stage 5: WooCommerce listing
-- ------------------------------------------------------------

/-- Stage-5 query: approved, not yet listed, active (limited). -/
def stage5Candidates (db : List Product) (maxP : Nat) : List Product :=
  (db.filter (fun p =>
    p.pipeline.approved && p.woocommerceProductId == none && p.isActive)).take maxP

/-- Stage-5 loop: each candidate's `createProduct` + mutation + save are
    wrapped in one try/catch appending a `woocommerce_listing` error. -/
def listFold (env : Env) : List Product → St × Nat → St × Nat
  | [], acc => acc
  | p :: rest, (s, n) =>
      match env.createListing p.pid with
      | .ok wooId =>
          match env.productSave with
          | .ok _ =>
              listFold env rest
                ({ s with db := dbUpdate s.db { p with woocommerceProductId := some (toString wooId) } }, n + 1)
          | .error m =>
              listFold env rest (pushError s "woocommerce_listing" (p.title ++ ": " ++ m), n)
      | .error m =>
          listFold env rest (pushError s "woocommerce_listing" (p.title ++ ": " ++ m), n)

def setListed (s : St) (n : Nat) : St :=
  { s with run := { s.run with results := { s.run.results with productsListed := n } } }

-- ------------------------------------------------------------
-- Completion: auto-list sweep and summary notification
-- ------------------------------------------------------------

/-- JS `Math.round` (half away from zero is irrelevant here; it rounds half
    toward +infinity): floor(q + 1/2). -/
def jsRound (q : Rat) : Int := (q + 1 / 2).floor

/-- Auto-list query condition: active, priced, and no definitive listing
    status yet. -/
def autoListCond (p : Product) : Bool :=
  p.isActive && decide (0 < p.sellingPriceAud) &&
    (p.status == none || p.status == some "" || p.status == some "draft"
      || p.status == some "discovered" || p.status == some "analyzed")

/-- Per-product auto-list mutation. -/
def autoListify (p : Product) : Product :=
  { p with
    status := some "listed"
    shopifyStatus := some "active"
    comparePriceAud :=
      if p.comparePriceAud == 0 && p.sellingPriceAud != 0 then
        (jsRound (p.sellingPriceAud * (27 / 20)) : Int)
      else p.comparePriceAud }

def setAutoListed (s : St) (n : Nat) : St :=
  { s with run := { s.run with results := { s.run.results with productsAutoListed := n } } }

/-- The auto-list sweep.  Everything (query, save loop, results update,
    `run.save()`) sits in one try/catch whose handler only logs, so this
    section never throws past its boundary.  A product-save failure aborts
    the loop before any product is written; a run-save failure loses only
    the `productsAutoListed` counter. -/
def autoListSec (env : Env) (s : St) : St :=
  let unlisted := s.db.filter autoListCond
  match env.productSave with
  | .error _ =>
      if unlisted.isEmpty then
        match env.runSave with
        | .ok _ => setAutoListed s 0
        | .error _ => s
      else s
  | .ok _ =>
      let s := { s with db := s.db.map (fun p => if autoListCond p then autoListify p else p) }
      match env.runSave with
      | .ok _ => setAutoListed s unlisted.length
      | .error _ => s

/-- The call `clawdbotBridge.notify('pipeline_complete', ...)` wrapped in try/catch:
    the outcome never changes the run record (failures are only logged).
    `executePipeline` calls no per-item marketing hook here. -/
def notifySec (env : Env) (s : St) : St :=
  match env.bridgeNotify with
  | .ok _ => callMark s "notify"
  | .error _ => callMark s "notify"

-- ------------------------------------------------------------
-- The pipeline body and executePipeline
-- ------------------------------------------------------------

def startSec (env : Env) (s : St) : Except (String × St) St :=
  saveRun env (pushLog (setStatus s "running") "Pipeline started")

def stage1 (env : Env) (s : St) : Except (String × St) St :=
  match saveRun env (pushLog s "Stage 1: TrendScout - discovering products") with
  | .error e => .error e
  | .ok s =>
      let (discovered, s) :=
        match env.scan with
        | .ok ps => (ps, callMark s "scan")
        | .error m => ([], pushError (callMark s "scan") "trend_discovery" m)
      let s := { s with run := { s.run with results :=
        { s.run.results with productsDiscovered := discovered.length } } }
      match saveRun env (pushLog s "Stage 1 complete") with
      | .error e => .error e
      | .ok s => .ok (saveDiscovered env s discovered)

def stage2 (env : Env) (s : St) : Except (String × St) St :=
  match saveRun env (pushLog s "Stage 2: Supplier sourcing") with
  | .error e => .error e
  | .ok s =>
      let s :=
        match env.autoSource with
        | .ok _ => callMark s "autoSource"
        | .error m => pushError (callMark s "autoSource") "supplier_sourcing" m
      saveRun env (pushLog s "Stage 2 complete")

def stage3 (env : Env) (s : St) : Except (String × St) St :=
  match saveRun env (pushLog s "Stage 3: AI content generation") with
  | .error e => .error e
  | .ok s =>
      let s :=
        match env.bulkEnrich with
        | .ok _ => callMark s "bulkEnrich"
        | .error m => pushError (callMark s "bulkEnrich") "ai_content" m
      saveRun env (pushLog s "Stage 3 complete")

def stage4 (env : Env) (s : St) : Except (String × St) St :=
  match saveRun env (pushLog s "Stage 4: Validation & auto-approval") with
  | .error e => .error e
  | .ok s =>
      let s := callMark s "validate"
      match validateFold env s.run.runId
        (stage4Candidates s.db (maxOr env.maxProducts 50)) (s, 0, 0) with
      | .error e => .error e
      | .ok (s, v, r) => saveRun env (pushLog (setValidated s v r) "Stage 4 complete")

def stage5 (env : Env) (s : St) : Except (String × St) St :=
  match saveRun env (pushLog s "Stage 5: WooCommerce listing") with
  | .error e => .error e
  | .ok s =>
      let s := callMark s "listingQuery"
      let (s, listed) := listFold env (stage5Candidates s.db (maxOr env.maxProducts 20)) (s, 0)
      saveRun env (pushLog (setListed s listed) "Stage 5 complete")

def stage6 (env : Env) (s : St) : Except (String × St) St :=
  match saveRun env (pushLog s "Stage 6: Syncing to Airtable") with
  | .error e => .error e
  | .ok s =>
      match env.airtableSync with
      | .ok _ => .ok (callMark s "airtable")
      | .error m => .ok (pushError (callMark s "airtable") "airtable_sync" m)

def completeSec (env : Env) (s : St) : Except (String × St) St :=
  saveRun env (pushLog (setStatus s "completed") "Pipeline completed")

/-- The body of `executePipeline` up to and including the auto-list sweep
    and the summary notification; an `.error` is an exception escaping all
    stage boundaries, carrying the in-memory state at the throw point. -/
def pipelineBody (env : Env) (s : St) : Except (String × St) St :=
  match startSec env s with
  | .error e => .error e
  | .ok s =>
  match stage1 env s with
  | .error e => .error e
  | .ok s =>
  match stage2 env s with
  | .error e => .error e
  | .ok s =>
  match stage3 env s with
  | .error e => .error e
  | .ok s =>
  match stage4 env s with
  | .error e => .error e
  | .ok s =>
  match stage5 env s with
  | .error e => .error e
  | .ok s =>
  match stage6 env s with
  | .error e => .error e
  | .ok s =>
  match completeSec env s with
  | .error e => .error e
  | .ok s => .ok (notifySec env (autoListSec env s))

/-- Function `executePipeline(run)`: on an escaping exception the outer catch sets
    `status = 'failed'`, logs, saves (a failing save rethrows its own
    message) and rethrows; the second component is the rethrown message. -/
def executePipeline (env : Env) (s : St) : St × Option String :=
  match pipelineBody env s with
  | .ok s => (s, none)
  | .error (m, s) =>
      let s := pushLog (setStatus s "failed") ("Pipeline failed: " ++ m)
      match env.runSave with
      | .ok _ => (s, some m)
      | .error m2 => (s, some m2)

/-- Error entries contributed by stage 1. -/
def scanErr (env : Env) : List StageError :=
  match env.scan with
  | .ok _ => []
  | .error m => [⟨"trend_discovery", m⟩]

/-- Error entries contributed by stage 2. -/
def srcErr (env : Env) : List StageError :=
  match env.autoSource with
  | .ok _ => []
  | .error m => [⟨"supplier_sourcing", m⟩]

/-- Error entries contributed by stage 3. -/
def aiErr (env : Env) : List StageError :=
  match env.bulkEnrich with
  | .ok _ => []
  | .error m => [⟨"ai_content", m⟩]

/-- Error entries contributed by stage 6. -/
def atErr (env : Env) : List StageError :=
  match env.airtableSync with
  | .ok _ => []
  | .error m => [⟨"airtable_sync", m⟩]

/-- Which whole-stage provider call throws (stages whose single provider
    call is wrapped by a stage-level try/catch). -/
inductive FailedStage
  | discovery
  | sourcing
  | aiContent
  | airtable
  deriving DecidableEq, Repr

/-- The stage name recorded in `results.errors` for each failing stage. -/
def stageLabel : FailedStage → String
  | .discovery => "trend_discovery"
  | .sourcing => "supplier_sourcing"
  | .aiContent => "ai_content"
  | .airtable => "airtable_sync"

/-- Exactly the provider call of stage `fs` throws `m`; every other
    whole-stage provider call returns normally. -/
def failsOnly (env : Env) (fs : FailedStage) (m : String) : Prop :=
  match fs with
  | .discovery =>
      env.scan = .error m ∧ (∃ n, env.autoSource = .ok n) ∧
        (∃ n, env.bulkEnrich = .ok n) ∧ env.airtableSync = .ok ()
  | .sourcing =>
      (∃ ps, env.scan = .ok ps) ∧ env.autoSource = .error m ∧
        (∃ n, env.bulkEnrich = .ok n) ∧ env.airtableSync = .ok ()
  | .aiContent =>
      (∃ ps, env.scan = .ok ps) ∧ (∃ n, env.autoSource = .ok n) ∧
        env.bulkEnrich = .error m ∧ env.airtableSync = .ok ()
  | .airtable =>
      (∃ ps, env.scan = .ok ps) ∧ (∃ n, env.autoSource = .ok n) ∧
        (∃ n, env.bulkEnrich = .ok n) ∧ env.airtableSync = .error m

end Pipeline

namespace Trend

/-- The fields of a scanned product that `TrendScout.scoreProduct` reads
    (`orders` is the CJ `listedNum` sales proxy). -/
structure TProduct where
  name : String := ""
  orders : Nat := 0
  costUsd : Rat := 0
  costAud : Rat := 0
  category : String := ""
  image : String := ""
  trendScore : Nat := 0
  deriving DecidableEq, Repr

/-- Sales-velocity tier bonus (0-25). -/
def ordersBonus (orders : Nat) : Nat :=
  if orders > 10000 then 25
  else if orders > 5000 then 20
  else if orders > 1000 then 15
  else if orders > 500 then 10
  else if orders > 100 then 5
  else 0

/-- The cost `product.costAud || product.costUsd || 0` (JS `||` skips 0). -/
def costOf (p : TProduct) : Rat :=
  if p.costAud ≠ 0 then p.costAud else if p.costUsd ≠ 0 then p.costUsd else 0

/-- Cost-band tier bonus favoring the 5-50 band (0-20). -/
def costBonus (c : Rat) : Nat :=
  if 5 ≤ c ∧ c ≤ 50 then 20
  else if 50 < c ∧ c ≤ 100 then 15
  else if 100 < c ∧ c ≤ 200 then 10
  else if 0 < c ∧ c < 5 then 5
  else 0

def highDemandCategories : List String :=
  ["electronics", "home", "beauty", "fashion", "sports", "toys", "kitchen", "garden", "pet"]

/-- Char-list version of `String.includes` on lowercase text. -/
def charsHave (sub : List Char) : List Char → Bool
  | [] => sub.isEmpty
  | c :: rest => (sub.isPrefixOf (c :: rest)) || charsHave sub rest

/-- Substring test `catLower.includes(c)` after `toLowerCase()`. -/
def strHas (hay needle : String) : Bool :=
  charsHave needle.toList (hay.toList.map Char.toLower)

/-- Bonus of 10 when the lowercased category contains a fixed high-demand name. -/
def categoryBonus (cat : String) : Nat :=
  if highDemandCategories.any (fun c => strHas cat c) then 10 else 0

/-- Method `TrendScout.scoreProduct`: additive heuristic, base 15, capped at 100;
    writes `trendScore` on the product and returns it. -/
def scoreProduct (p : TProduct) : TProduct :=
  let score :=
    15 + ordersBonus p.orders + costBonus (costOf p) + categoryBonus p.category
      + (if p.image ≠ "" then 5 else 0)
      + (if p.name ≠ "" ∧ p.name.length > 10 then 5 else 0)
  { p with trendScore := min score 100 }

end Trend

namespace Social

/-- The interval `minPostIntervalMs` fixed by the SocialPoster constructor: 2 hours. -/
def minPostIntervalMs : Nat := 2 * 60 * 60 * 1000

/-- The three channels the poster writes into `lastPostTime`. -/
inductive Platform
  | instagram
  | facebook
  | pinterest
  deriving DecidableEq, Repr

/-- The map `this.lastPostTime` (epoch ms per channel; `none` = never posted). -/
structure Cooldowns where
  instagram : Option Nat := none
  facebook : Option Nat := none
  pinterest : Option Nat := none
  deriving DecidableEq, Repr

def Cooldowns.get (c : Cooldowns) : Platform → Option Nat
  | .instagram => c.instagram
  | .facebook => c.facebook
  | .pinterest => c.pinterest

def Cooldowns.set (c : Cooldowns) (pf : Platform) (t : Nat) : Cooldowns :=
  match pf with
  | .instagram => { c with instagram := some t }
  | .facebook => { c with facebook := some t }
  | .pinterest => { c with pinterest := some t }

/-- SocialPoster state: channel enablement flags (from env config) and the
    per-channel cooldown map. -/
structure Poster where
  igEnabled : Bool := false
  metaEnabled : Bool := false
  pinterestEnabled : Bool := false
  lastPostTime : Cooldowns := {}
  deriving DecidableEq, Repr

/-- Gate `canPost(platform)`: `Date.now() - (lastPostTime[platform] || 0) >=
    minPostIntervalMs` (truncated subtraction matches the JS comparison
    since a future timestamp also fails the test). -/
def canPost (p : Poster) (now : Nat) (pf : Platform) : Bool :=
  minPostIntervalMs ≤ now - ((p.lastPostTime.get pf).getD 0)

/-- Method `markPosted(platform)`. -/
def markPosted (p : Poster) (pf : Platform) (now : Nat) : Poster :=
  { p with lastPostTime := p.lastPostTime.set pf now }

/-- Product fields read by the posting path. -/
structure SProduct where
  title : String := ""
  featuredImage : String := ""
  images : List String := []
  deriving DecidableEq, Repr

/-- Image pick `product.featuredImage || product.images?.[0]`. -/
def imageOf (p : SProduct) : Option String :=
  if p.featuredImage ≠ "" then some p.featuredImage else p.images.head?

/-- Per-channel result record `{success, reason|postId}`. -/
structure PostResult where
  success : Bool
  reason : Option String := none
  postId : Option String := none
  deriving DecidableEq, Repr

/-- Outcomes of the network calls a posting attempt can make.  `copy` is
    the caption produced by `generateSocialCopy` (total: it falls back to a
    template on failure) and `copyCalls` the network calls it made. -/
structure SEnv where
  copy : String := ""
  copyCalls : Nat := 0
  igCreate : Except String (Option String) := .ok none
  igPublish : Except String (Option String) := .ok none
  fbPost : Except String (Option String) := .ok none
  pinPost : Except String (Option String) := .ok none
  hasBridge : Bool := false

/-- Method `postToInstagram`: enabled gate, cooldown gate (before any network
    activity), caption, image check, media-container call, publish call.
    Third component counts network calls performed. -/
def postToInstagram (p : Poster) (env : SEnv) (now : Nat) (prod : SProduct) :
    PostResult × Poster × Nat :=
  if !p.igEnabled then ({ success := false, reason := some "not_configured" }, p, 0)
  else if !canPost p now .instagram then
    ({ success := false, reason := some "rate_limited" }, p, 0)
  else
    match imageOf prod with
    | none => ({ success := false, reason := some "no_image" }, p, env.copyCalls)
    | some _ =>
        match env.igCreate with
        | .error m => ({ success := false, reason := some m }, p, env.copyCalls + 1)
        | .ok none =>
            ({ success := false, reason := some "No container ID" }, p, env.copyCalls + 1)
        | .ok (some _) =>
            match env.igPublish with
            | .error m => ({ success := false, reason := some m }, p, env.copyCalls + 2)
            | .ok pid =>
                ({ success := true, postId := pid }, markPosted p .instagram now,
                  env.copyCalls + 2)

/-- Method `postToFacebook`: enabled gate, cooldown gate, caption, one photos/feed
    call (no image requirement). -/
def postToFacebook (p : Poster) (env : SEnv) (now : Nat) (prod : SProduct) :
    PostResult × Poster × Nat :=
  if !p.metaEnabled then ({ success := false, reason := some "not_configured" }, p, 0)
  else if !canPost p now .facebook then
    ({ success := false, reason := some "rate_limited" }, p, 0)
  else
    match env.fbPost with
    | .error m => ({ success := false, reason := some m }, p, env.copyCalls + 1)
    | .ok pid =>
        ({ success := true, postId := pid }, markPosted p .facebook now, env.copyCalls + 1)

/-- Method `postToPinterest`: enabled gate, cooldown gate, caption, image check,
    one pin-creation call. -/
def postToPinterest (p : Poster) (env : SEnv) (now : Nat) (prod : SProduct) :
    PostResult × Poster × Nat :=
  if !p.pinterestEnabled then ({ success := false, reason := some "not_configured" }, p, 0)
  else if !canPost p now .pinterest then
    ({ success := false, reason := some "rate_limited" }, p, 0)
  else
    match imageOf prod with
    | none => ({ success := false, reason := some "no_image" }, p, env.copyCalls)
    | some _ =>
        match env.pinPost with
        | .error m => ({ success := false, reason := some m }, p, env.copyCalls + 1)
        | .ok pid =>
            ({ success := true, postId := pid }, markPosted p .pinterest now,
              env.copyCalls + 1)

/-- Aggregate per-channel result map of `postProductToAll`. -/
structure Summary where
  instagram : PostResult
  facebook : PostResult
  pinterest : PostResult
  deriving DecidableEq, Repr

/-- Method `postProductToAll`: the three channel posts (serialized; each channel
    reads and writes only its own cooldown entry) plus the fire-and-forget
    OpenClaw report call. -/
def postProductToAll (p : Poster) (env : SEnv) (now : Nat) (prod : SProduct) :
    Summary × Poster × Nat :=
  let (ri, p1, n1) := postToInstagram p env now prod
  let (rf, p2, n2) := postToFacebook p1 env now prod
  let (rp, p3, n3) := postToPinterest p2 env now prod
  (⟨ri, rf, rp⟩, p3, n1 + n2 + n3 + (if env.hasBridge then 1 else 0))

/-- Method `MarketingOrchestrator.forcePostProduct`: clears the whole
    `lastPostTime` map, then posts to all channels. -/
def forcePostProduct (p : Poster) (env : SEnv) (now : Nat) (prod : SProduct) :
    Summary × Poster × Nat :=
  postProductToAll { p with lastPostTime := {} } env now prod

/-- No provider error message happens to collide with the literal reason
    string of the cooldown gate. -/
def noRLErrors (env : SEnv) : Prop :=
  (∀ m, env.igCreate = .error m → m ≠ "rate_limited") ∧
  (∀ m, env.igPublish = .error m → m ≠ "rate_limited") ∧
  (∀ m, env.fbPost = .error m → m ≠ "rate_limited") ∧
  (∀ m, env.pinPost = .error m → m ≠ "rate_limited")

end Social

namespace Marketing

/-- The `content.image` sub-document `{url, prompt(omitted), status, error}`. -/
structure GenImage where
  url : String := ""
  status : String := ""
  error : String := ""
  deriving DecidableEq, Repr

/-- Payload returned by `contentGenerator.generateForProduct`. -/
structure GenContent where
  caption : String := ""
  image : GenImage := {}
  video : String := ""
  generationCost : Rat := 0
  deriving DecidableEq, Repr

/-- A MarketingContent document (timestamps modeled as set/unset flags). -/
structure Content where
  cid : Nat
  productId : Nat
  productTitle : String := ""
  productImage : String := ""
  productPrice : Rat := 0
  productCategory : String := ""
  status : String := "generating"
  caption : String := ""
  image : GenImage := {}
  video : String := ""
  generationCost : Rat := 0
  rejectionReason : String := ""
  approvedAt : Bool := false
  rejectedAt : Bool := false
  postedAt : Bool := false
  postResults : List (String × Bool) := []
  regenerationCount : Nat := 0
  regeneratedFrom : Option Nat := none
  deriving DecidableEq, Repr

/-- Lookup `MarketingContent.findById`. -/
def findContent : List Content → Nat → Option Content
  | [], _ => none
  | c :: rest, i => if c.cid == i then some c else findContent rest i

/-- Persist a mutated document (`content.save()`), replacing by id. -/
def updateContent (store : List Content) (c : Content) : List Content :=
  store.map (fun x => if x.cid == c.cid then c else x)

/-- Return value of `approveContent`. -/
structure ApproveResult where
  success : Bool
  posted : Option Nat := none
  error : Option String := none
  deriving DecidableEq, Repr

/-- Successful-channel count over a per-channel result map. -/
def successCount (rs : List (String × Bool)) : Nat :=
  (rs.filter (fun r => r.2)).length

/-- Method `MarketingOrchestrator.approveContent(contentId)`: throws on a missing
    item or a status other than `pending_approval`; otherwise persists
    `approved`, then runs the (non-rate-limited) multi-channel post, whose
    outcome is `post`: on success advances to `posted`, on a thrown post
    the item stays `approved` and `{success:false, error}` is returned. -/
def approveContent (post : Except String (List (String × Bool)))
    (store : List Content) (i : Nat) :
    Except String (ApproveResult × List Content) :=
  match findContent store i with
  | none => .error "Content not found"
  | some content =>
      if content.status ≠ "pending_approval" then
        .error ("Cannot approve content with status: " ++ content.status)
      else
        let c1 := { content with status := "approved", approvedAt := true }
        let store1 := updateContent store c1
        match post with
        | .error m => .ok ({ success := false, error := some m }, store1)
        | .ok rs =>
            let c2 := { c1 with status := "posted", postedAt := true, postResults := rs }
            .ok ({ success := true, posted := some (successCount rs) },
              updateContent store1 c2)

/-- Method `MarketingOrchestrator.rejectContent(contentId, reason)`: throws only
    if the item is missing; otherwise persists `rejected` with the given
    reason regardless of the current status. -/
def rejectContent (store : List Content) (i : Nat) (reason : String) :
    Except String (Bool × List Content) :=
  match findContent store i with
  | none => .error "Content not found"
  | some content =>
      let c1 := { content with
        status := "rejected", rejectedAt := true, rejectionReason := reason }
      .ok (true, updateContent store c1)

/-- The prior item as `regenerateContent` persists it. -/
def rejectedOld (old : Content) : Content :=
  { old with status := "rejected", rejectionReason := "Regenerated" }

/-- The replacement document created by `regenerateContent`, starting in
    `generating`, with an incremented regeneration count and a
    back-reference to the prior item; `newId` is its fresh database id. -/
def freshContent (newId : Nat) (old : Content) (product : Pipeline.Product) : Content :=
  { cid := newId
    productId := product.pid
    productTitle := product.title
    productImage :=
      if product.featuredImage ≠ "" then product.featuredImage
      else (product.images.head?).getD ""
    productPrice := product.sellingPriceAud
    productCategory := product.category
    status := "generating"
    regenerationCount := old.regenerationCount + 1
    regeneratedFrom := some old.cid }

/-- The replacement document after a successful generation. -/
def completedContent (fresh : Content) (g : GenContent) : Content :=
  { fresh with
    caption := g.caption, image := g.image, video := g.video,
    generationCost := g.generationCost, status := "pending_approval" }

/-- The replacement document after a failed generation. -/
def failedContent (fresh : Content) (m : String) : Content :=
  { fresh with status := "failed", image := { status := "failed", error := m } }

/-- Method `MarketingOrchestrator.regenerateContent(contentId)`: marks the old
    item `rejected` (reason "Regenerated"), looks up the product, creates
    one new document in `generating`, then runs generation (`gen`): on
    success the new item advances to `pending_approval` and is returned,
    on failure it is marked `failed` and the error is rethrown.  Returns
    the final store alongside the thrown-or-returned value. -/
def regenerateContent (gen : Except String GenContent) (newId : Nat)
    (store : List Content) (products : List Pipeline.Product) (i : Nat) :
    List Content × Except String Content :=
  match findContent store i with
  | none => (store, .error "Content not found")
  | some old =>
      let store1 := updateContent store (rejectedOld old)
      match products.find? (fun p => p.pid == old.productId) with
      | none => (store1, .error "Product not found")
      | some product =>
          let fresh := freshContent newId old product
          let store2 := store1 ++ [fresh]
          match gen with
          | .ok g =>
              (updateContent store2 (completedContent fresh g), .ok (completedContent fresh g))
          | .error m =>
              (updateContent store2 (failedContent fresh m), .error m)

end Marketing

-- ============================================================
-- Concrete instances used by witnesses and counterexamples
-- ============================================================

namespace Pipeline

/-- All external calls succeed and return empty/zero data. -/
def allOkEnv : Env := {}

/-- Only the stage-1 provider call throws. -/
def failingScanEnv : Env := { scan := .error "timeout" }

/-- A candidate with no cost data but high margin and research score. -/
def zeroCostProduct : Product :=
  { pid := 1, costUsd := 0, profitMarginPercent := 50, isActive := true
    supplier := { url := some "https://supplier.example/a" }
    pipeline := { researchScore := 90 } }

/-- Run state holding only the zero-cost candidate. -/
def zeroCostSt : St := { run := { runId := "run-c5" }, db := [zeroCostProduct] }

/-- The worked example of the spec: cost $8, margin 40%, score 10,
    supplier url present. -/
def marginExample : Product :=
  { pid := 2, costUsd := 8, profitMarginPercent := 40, isActive := true
    supplier := { url := some "https://supplier.example/b" }
    pipeline := { researchScore := 10 } }

/-- An active, priced product with no listing status: picked up by the
    auto-list sweep. -/
def autoListProduct : Product :=
  { pid := 3, costUsd := 0, sellingPriceAud := 20, isActive := true, status := none }

/-- Run state holding only the auto-listable product. -/
def autoListSt : St := { run := { runId := "run-c7" }, db := [autoListProduct] }

/-- Fresh run state with an empty product collection. -/
def emptySt : St := { run := { runId := "run-c2" }, db := [] }

end Pipeline

namespace Trend

/-- A CJ-like scanned product: 6000 orders, cost 20 AUD, electronics,
    image present, descriptive name. -/
def scanExample : TProduct :=
  { name := "Wireless Charging Stand", orders := 6000, costAud := 20
    category := "Electronics Gadgets", image := "https://img.example/x.jpg" }

end Trend

namespace Social

/-- Instagram configured and posted to 1000 ms before `now = 2000`. -/
def recentIgPoster : Poster :=
  { igEnabled := true, metaEnabled := true, pinterestEnabled := true
    lastPostTime := { instagram := some 1000 } }

/-- A product with no usable image. -/
def bareProduct : SProduct := { title := "Bare" }

end Social

namespace Marketing

/-- A content item already in the terminal `posted` state. -/
def postedItem : Content := { cid := 7, productId := 1, status := "posted" }

/-- A content item awaiting approval. -/
def pendingItem : Content := { cid := 9, productId := 2, status := "pending_approval" }

/-- The catalog product behind `pendingItem`. -/
def demoProduct : Pipeline.Product :=
  { pid := 2, title := "Demo", sellingPriceAud := 30, category := "home" }

end Marketing

-- ============================================================
-- Theorems: admission control (claim C1)
-- ============================================================

namespace Admission

theorem findActive_none_countP (s : Store) (h : findActive s = none) :
    activeCount s = 0 := by
  unfold findActive at h
  unfold activeCount
  rw [List.find?_eq_none] at h
  rw [List.countP_eq_zero]
  intro r hr
  exact h r hr

theorem countP_map_le {α : Type} (l : List α) (f : α → α) (p : α → Bool)
    (h : ∀ a, p (f a) = true → p a = true) :
    (l.map f).countP p ≤ l.countP p := by
  rw [List.countP_map]
  apply List.countP_mono_left
  intro a _ hpa
  exact h a hpa

theorem step_preserves_invariant (s : Store) (e : Ev) (hc : e.checked = true)
    (h : activeCount s ≤ 1) : activeCount (step s e) ≤ 1 := by
  cases e with
  | agentStart newId => simp [Ev.checked] at hc
  | start newId asQueued =>
      simp only [step, startRun]
      cases hf : findActive s with
      | some a => simpa using h
      | none =>
          have hzero := findActive_none_countP s hf
          simp only [activeCount] at hzero ⊢
          rw [List.countP_append, hzero]
          cases asQueued <;> simp [RStatus.isActive, List.countP_cons]
  | markRunning id =>
      simp only [step, activeCount] at h ⊢
      refine le_trans (countP_map_le _ _ _ ?_) h
      intro r hr
      by_cases hc : (r.runId == id && r.status.isActive) = true
      · simp [hc] at hr ⊢
        exact (Bool.and_eq_true _ _ |>.mp hc).2
      · simp only [Bool.not_eq_true] at hc
        simpa [hc] using hr
  | finish id failed =>
      simp only [step, activeCount] at h ⊢
      refine le_trans (countP_map_le _ _ _ ?_) h
      intro r hr
      by_cases hc : (r.runId == id) = true
      · simp [hc] at hr
        cases failed <;> simp_all [RStatus.isActive]
      · simp only [Bool.not_eq_true] at hc
        simpa [hc] using hr

theorem replay_invariant_aux (evs : List Ev) :
    ∀ s : Store, (∀ e ∈ evs, e.checked = true) →
      activeCount s ≤ 1 → activeCount (evs.foldl step s) ≤ 1 := by
  induction evs with
  | nil => intro s _ h; simpa using h
  | cons e es ih =>
      intro s hcs h
      exact ih (step s e) (fun x hx => hcs x (List.mem_cons_of_mem e hx))
        (step_preserves_invariant s e (hcs e (List.mem_cons_self e es)) h)

/-- C1 counterexample: a start-run through the checked route followed by the
    OpenClaw `run_pipeline` agent command leaves two runs in `running`
    simultaneously — the agent command creates its run with no admission
    check, so the serialized singleton invariant fails. -/
theorem c1_counterexample :
    activeCount (replay [.start 1 false, .agentStart 2]) = 2 := by
  rfl

/-- C1 (amended).  Singleton-run invariant over the admission-checked
    triggers: replaying any serialized sequence of checked start-run /
    mark-running / finish events from an empty store leaves at most one
    PipelineRun in `queued`/`running`, and a checked start-run call made
    while an active run exists returns Conflict carrying that active run's
    `runId` and leaves the store unchanged (no new record); the OpenClaw
    `run_pipeline` agent command, by contrast, unconditionally adds one
    more active run — with no check, no Conflict — whatever the store
    holds. -/
theorem c1_singleton_run :
    (∀ evs : List Ev, (∀ e ∈ evs, e.checked = true) →
      activeCount (replay evs) ≤ 1) ∧
    (∀ (s : Store) (newId : Nat) (initial : RStatus) (a : RRun),
      findActive s = some a →
      startRun s newId initial = (.conflict a.runId, s) ∧
      a ∈ s.runs ∧ a.status.isActive = true) ∧
    (∀ (s : Store) (newId : Nat),
      step s (.agentStart newId) = ⟨s.runs ++ [⟨newId, .running⟩]⟩ ∧
      activeCount (step s (.agentStart newId)) = activeCount s + 1) := by
  refine ⟨?_, ?_, ?_⟩
  · intro evs hcs
    exact replay_invariant_aux evs ⟨[]⟩ hcs (by simp [activeCount])
  · intro s newId initial a hf
    have hf' : s.runs.find? (fun r => r.status.isActive) = some a := hf
    refine ⟨by simp [startRun, hf], List.mem_of_find?_eq_some hf', ?_⟩
    have hact := List.find?_some hf'
    simpa using hact
  · intro s newId
    refine ⟨rfl, ?_⟩
    simp [step, openclawStart, activeCount, List.countP_append, RStatus.isActive]

/-- Concrete witness for C1 (amended): two checked start-run calls in a
    row respect the invariant, the second conflicting with the first and
    creating nothing; one agent start on the same store adds a second
    active run. -/
theorem c1_singleton_run_witness :
    activeCount (replay [.start 1 false, .start 2 false]) ≤ 1 ∧
    startRun ⟨[⟨1, .running⟩]⟩ 2 .running = (.conflict 1, ⟨[⟨1, .running⟩]⟩) ∧
    activeCount (step ⟨[⟨1, .running⟩]⟩ (.agentStart 2)) = 2 := by
  refine ⟨c1_singleton_run.1 [.start 1 false, .start 2 false] (by decide), ?_, ?_⟩
  · exact (c1_singleton_run.2.1 ⟨[⟨1, .running⟩]⟩ 2 .running ⟨1, .running⟩ (by rfl)).1
  · have h := (c1_singleton_run.2.2 ⟨[⟨1, .running⟩]⟩ 2).2
    simpa [activeCount, RStatus.isActive] using h

end Admission

-- ============================================================
-- Stage characterization lemmas for executePipeline
-- ============================================================

namespace Pipeline

theorem saveDiscovered_run_calls (env : Env) (ds : List Discovered) :
    ∀ s : St, (saveDiscovered env s ds).run = s.run ∧ (saveDiscovered env s ds).calls = s.calls := by
  induction ds with
  | nil => intro s; exact ⟨rfl, rfl⟩
  | cons d rest ih =>
      intro s
      cases hps : env.productSave with
      | ok u => simpa [saveDiscovered, hps] using ih _
      | error m => simpa [saveDiscovered, hps] using ih s

theorem startSec_ok (env : Env) (s : St) (hr : env.runSave = .ok ()) :
    ∃ s', startSec env s = .ok s' ∧
      s'.run.results.errors = s.run.results.errors ∧ s'.calls = s.calls := by
  simp only [startSec, saveRun, hr]
  exact ⟨_, rfl, by simp [pushLog, setStatus], by simp [pushLog, setStatus]⟩

theorem stage1_ok (env : Env) (s : St) (hr : env.runSave = .ok ()) :
    ∃ s', stage1 env s = .ok s' ∧
      s'.run.results.errors = s.run.results.errors ++ scanErr env ∧
      s'.calls = s.calls ++ ["scan"] ∧
      s'.run.status = s.run.status := by
  cases hs : env.scan with
  | ok ps =>
      simp only [stage1, saveRun, hr, hs]
      refine ⟨_, rfl, ?_, ?_, ?_⟩
      · rw [(saveDiscovered_run_calls env ps _).1]
        simp [scanErr, hs, pushLog, callMark]
      · rw [(saveDiscovered_run_calls env ps _).2]
        simp [pushLog, callMark]
      · rw [(saveDiscovered_run_calls env ps _).1]
        simp [pushLog, callMark]
  | error m =>
      simp only [stage1, saveRun, hr, hs]
      refine ⟨_, rfl, ?_, ?_, ?_⟩
      · rw [(saveDiscovered_run_calls env [] _).1]
        simp [scanErr, hs, pushLog, callMark, pushError]
      · rw [(saveDiscovered_run_calls env [] _).2]
        simp [pushLog, callMark, pushError]
      · rw [(saveDiscovered_run_calls env [] _).1]
        simp [pushLog, callMark, pushError]

theorem stage2_ok (env : Env) (s : St) (hr : env.runSave = .ok ()) :
    ∃ s', stage2 env s = .ok s' ∧
      s'.run.results.errors = s.run.results.errors ++ srcErr env ∧
      s'.calls = s.calls ++ ["autoSource"] ∧
      s'.run.status = s.run.status := by
  cases hs : env.autoSource with
  | ok n =>
      simp only [stage2, saveRun, hr, hs]
      exact ⟨_, rfl, by simp [srcErr, hs, pushLog, callMark],
        by simp [pushLog, callMark], by simp [pushLog, callMark]⟩
  | error m =>
      simp only [stage2, saveRun, hr, hs]
      exact ⟨_, rfl, by simp [srcErr, hs, pushLog, callMark, pushError],
        by simp [pushLog, callMark, pushError], by simp [pushLog, callMark, pushError]⟩

theorem stage3_ok (env : Env) (s : St) (hr : env.runSave = .ok ()) :
    ∃ s', stage3 env s = .ok s' ∧
      s'.run.results.errors = s.run.results.errors ++ aiErr env ∧
      s'.calls = s.calls ++ ["bulkEnrich"] ∧
      s'.run.status = s.run.status := by
  cases hs : env.bulkEnrich with
  | ok n =>
      simp only [stage3, saveRun, hr, hs]
      exact ⟨_, rfl, by simp [aiErr, hs, pushLog, callMark],
        by simp [pushLog, callMark], by simp [pushLog, callMark]⟩
  | error m =>
      simp only [stage3, saveRun, hr, hs]
      exact ⟨_, rfl, by simp [aiErr, hs, pushLog, callMark, pushError],
        by simp [pushLog, callMark, pushError], by simp [pushLog, callMark, pushError]⟩

theorem validateFold_ok (env : Env) (rid : String) (hp : env.productSave = .ok ())
    (cands : List Product) :
    ∀ s v r, ∃ s' v' r', validateFold env rid cands (s, v, r) = .ok (s', v', r') ∧
      s'.run = s.run ∧ s'.calls = s.calls := by
  induction cands with
  | nil => intro s v r; exact ⟨s, v, r, rfl, rfl, rfl⟩
  | cons p rest ih =>
      intro s v r
      cases hc : classify p with
      | reject reason =>
          obtain ⟨s', v', r', heq, hrun, hcalls⟩ :=
            ih { s with db := dbUpdate s.db (applyVerdict rid p (.reject reason)) } v (r + 1)
          exact ⟨s', v', r', by simp [validateFold, hc, hp, heq], hrun, hcalls⟩
      | approve =>
          obtain ⟨s', v', r', heq, hrun, hcalls⟩ :=
            ih { s with db := dbUpdate s.db (applyVerdict rid p .approve) } (v + 1) r
          exact ⟨s', v', r', by simp [validateFold, hc, hp, heq], hrun, hcalls⟩
      | silentReject =>
          obtain ⟨s', v', r', heq, hrun, hcalls⟩ := ih s v (r + 1)
          exact ⟨s', v', r', by simp [validateFold, hc, heq], hrun, hcalls⟩

theorem stage4_ok (env : Env) (s : St) (hr : env.runSave = .ok ())
    (hp : env.productSave = .ok ()) :
    ∃ s', stage4 env s = .ok s' ∧
      s'.run.results.errors = s.run.results.errors ∧
      s'.calls = s.calls ++ ["validate"] ∧
      s'.run.status = s.run.status := by
  obtain ⟨s', v', r', heq, hrun, hcalls⟩ :=
    validateFold_ok env
      (callMark (pushLog s "Stage 4: Validation & auto-approval") "validate").run.runId hp
      (stage4Candidates (callMark (pushLog s "Stage 4: Validation & auto-approval") "validate").db
        (maxOr env.maxProducts 50))
      (callMark (pushLog s "Stage 4: Validation & auto-approval") "validate") 0 0
  simp only [stage4, saveRun, hr, heq]
  exact ⟨_, rfl,
    by simp [setValidated, pushLog, callMark, hrun],
    by simp [setValidated, pushLog, callMark, hcalls],
    by simp [setValidated, pushLog, callMark, hrun]⟩

theorem listFold_general (env : Env) (ps : List Product) :
    ∀ s n, ∃ s' n' es, listFold env ps (s, n) = (s', n') ∧
      s'.run.results.errors = s.run.results.errors ++ es ∧
      s'.calls = s.calls ∧ s'.run.status = s.run.status := by
  induction ps with
  | nil => intro s n; exact ⟨s, n, [], rfl, by simp, rfl, rfl⟩
  | cons p rest ih =>
      intro s n
      cases hc : env.createListing p.pid with
      | ok wooId =>
          cases hps : env.productSave with
          | ok u =>
              obtain ⟨s', n', es, heq, herr, hcalls, hstat⟩ :=
                ih { s with db := dbUpdate s.db { p with woocommerceProductId := some (toString wooId) } } (n + 1)
              exact ⟨s', n', es, by simp [listFold, hc, hps, heq], by simpa using herr,
                hcalls, hstat⟩
          | error m =>
              obtain ⟨s', n', es, heq, herr, hcalls, hstat⟩ :=
                ih (pushError s "woocommerce_listing" (p.title ++ ": " ++ m)) n
              refine ⟨s', n', ⟨"woocommerce_listing", p.title ++ ": " ++ m⟩ :: es,
                by simp [listFold, hc, hps, heq], ?_, by simpa [pushError] using hcalls,
                by simpa [pushError] using hstat⟩
              simp [pushError] at herr
              simp [herr]
      | error m =>
          obtain ⟨s', n', es, heq, herr, hcalls, hstat⟩ :=
            ih (pushError s "woocommerce_listing" (p.title ++ ": " ++ m)) n
          refine ⟨s', n', ⟨"woocommerce_listing", p.title ++ ": " ++ m⟩ :: es,
            by simp [listFold, hc, heq], ?_, by simpa [pushError] using hcalls,
            by simpa [pushError] using hstat⟩
          simp [pushError] at herr
          simp [herr]

theorem listFold_exact (env : Env) (hp : env.productSave = .ok ())
    (hcl : ∀ i, ∃ k, env.createListing i = .ok k) (ps : List Product) :
    ∀ s n, ∃ s' n', listFold env ps (s, n) = (s', n') ∧
      s'.run.results.errors = s.run.results.errors ∧
      s'.calls = s.calls ∧ s'.run.status = s.run.status := by
  induction ps with
  | nil => intro s n; exact ⟨s, n, rfl, rfl, rfl, rfl⟩
  | cons p rest ih =>
      intro s n
      obtain ⟨k, hk⟩ := hcl p.pid
      obtain ⟨s', n', heq, herr, hcalls, hstat⟩ :=
        ih { s with db := dbUpdate s.db { p with woocommerceProductId := some (toString k) } } (n + 1)
      exact ⟨s', n', by simp [listFold, hk, hp, heq], by simpa using herr, hcalls, hstat⟩

theorem stage5_general (env : Env) (s : St) (hr : env.runSave = .ok ()) :
    ∃ s' es, stage5 env s = .ok s' ∧
      s'.run.results.errors = s.run.results.errors ++ es ∧
      s'.calls = s.calls ++ ["listingQuery"] ∧
      s'.run.status = s.run.status := by
  obtain ⟨s', n', es, heq, herr, hcalls, hstat⟩ :=
    listFold_general env
      (stage5Candidates (callMark (pushLog s "Stage 5: WooCommerce listing") "listingQuery").db
        (maxOr env.maxProducts 20))
      (callMark (pushLog s "Stage 5: WooCommerce listing") "listingQuery") 0
  simp only [stage5, saveRun, hr, heq]
  refine ⟨_, es, rfl, ?_, ?_, ?_⟩
  · simp [setListed, pushLog, callMark] at herr ⊢
    simp [herr]
  · simp [setListed, pushLog, callMark] at hcalls ⊢
    simp [hcalls]
  · simp [setListed, pushLog, callMark] at hstat ⊢
    simp [hstat]

theorem stage5_exact (env : Env) (s : St) (hr : env.runSave = .ok ())
    (hp : env.productSave = .ok ())
    (hcl : ∀ i, ∃ k, env.createListing i = .ok k) :
    ∃ s', stage5 env s = .ok s' ∧
      s'.run.results.errors = s.run.results.errors ∧
      s'.calls = s.calls ++ ["listingQuery"] ∧
      s'.run.status = s.run.status := by
  obtain ⟨s', n', heq, herr, hcalls, hstat⟩ :=
    listFold_exact env hp hcl
      (stage5Candidates (callMark (pushLog s "Stage 5: WooCommerce listing") "listingQuery").db
        (maxOr env.maxProducts 20))
      (callMark (pushLog s "Stage 5: WooCommerce listing") "listingQuery") 0
  simp only [stage5, saveRun, hr, heq]
  refine ⟨_, rfl, ?_, ?_, ?_⟩
  · simp [setListed, pushLog, callMark] at herr ⊢
    simp [herr]
  · simp [setListed, pushLog, callMark] at hcalls ⊢
    simp [hcalls]
  · simp [setListed, pushLog, callMark] at hstat ⊢
    simp [hstat]

theorem stage6_ok (env : Env) (s : St) (hr : env.runSave = .ok ()) :
    ∃ s', stage6 env s = .ok s' ∧
      s'.run.results.errors = s.run.results.errors ++ atErr env ∧
      s'.calls = s.calls ++ ["airtable"] ∧
      s'.run.status = s.run.status := by
  cases hs : env.airtableSync with
  | ok u =>
      simp only [stage6, saveRun, hr, hs]
      exact ⟨_, rfl, by simp [atErr, hs, pushLog, callMark],
        by simp [pushLog, callMark], by simp [pushLog, callMark]⟩
  | error m =>
      simp only [stage6, saveRun, hr, hs]
      exact ⟨_, rfl, by simp [atErr, hs, pushLog, callMark, pushError],
        by simp [pushLog, callMark, pushError], by simp [pushLog, callMark, pushError]⟩

theorem completeSec_ok (env : Env) (s : St) (hr : env.runSave = .ok ()) :
    ∃ s', completeSec env s = .ok s' ∧
      s'.run.results.errors = s.run.results.errors ∧
      s'.calls = s.calls ∧ s'.run.status = "completed" := by
  simp only [completeSec, saveRun, hr]
  exact ⟨_, rfl, by simp [pushLog, setStatus], by simp [pushLog, setStatus],
    by simp [pushLog, setStatus]⟩

theorem autoListSec_props (env : Env) (s : St) (hr : env.runSave = .ok ())
    (hp : env.productSave = .ok ()) :
    (autoListSec env s).run.results.errors = s.run.results.errors ∧
    (autoListSec env s).calls = s.calls ∧
    (autoListSec env s).run.status = s.run.status := by
  simp [autoListSec, hr, hp, setAutoListed]

theorem notifySec_props (env : Env) (s : St) :
    (notifySec env s).run = s.run ∧ (notifySec env s).calls = s.calls ++ ["notify"] := by
  cases hn : env.bridgeNotify <;> simp [notifySec, hn, callMark]

/-- Master completion lemma: whenever `run.save()` and `product.save()`
    succeed, the pipeline body never throws; the run finishes `completed`,
    every stage's call site is reached in order, and the error list is
    exactly the per-stage contributions (stage 5 contributing some list of
    listing errors). -/
theorem pipeline_completes (env : Env) (s0 : St) (hr : env.runSave = .ok ())
    (hp : env.productSave = .ok ()) :
    ∃ sF es, pipelineBody env s0 = .ok sF ∧
      sF.run.status = "completed" ∧
      sF.calls = s0.calls ++
        ["scan", "autoSource", "bulkEnrich", "validate", "listingQuery", "airtable", "notify"] ∧
      sF.run.results.errors = s0.run.results.errors ++
        scanErr env ++ srcErr env ++ aiErr env ++ es ++ atErr env := by
  obtain ⟨s1, h1, he1, hc1⟩ := startSec_ok env s0 hr
  obtain ⟨s2, h2, he2, hc2, _⟩ := stage1_ok env s1 hr
  obtain ⟨s3, h3, he3, hc3, _⟩ := stage2_ok env s2 hr
  obtain ⟨s4, h4, he4, hc4, _⟩ := stage3_ok env s3 hr
  obtain ⟨s5, h5, he5, hc5, _⟩ := stage4_ok env s4 hr hp
  obtain ⟨s6, es, h6, he6, hc6, _⟩ := stage5_general env s5 hr
  obtain ⟨s7, h7, he7, hc7, _⟩ := stage6_ok env s6 hr
  obtain ⟨s8, h8, he8, hc8, hst8⟩ := completeSec_ok env s7 hr
  obtain ⟨hea, hca, hsta⟩ := autoListSec_props env s8 hr hp
  obtain ⟨hrn, hcn⟩ := notifySec_props env (autoListSec env s8)
  refine ⟨notifySec env (autoListSec env s8), es, ?_, ?_, ?_, ?_⟩
  · simp [pipelineBody, h1, h2, h3, h4, h5, h6, h7, h8]
  · rw [hrn, hsta, hst8]
  · simp [hcn, hca, hc8, hc7, hc6, hc5, hc4, hc3, hc2, hc1]
  · simp [hrn, hea, he8, he7, he6, he5, he4, he3, he2, he1]

/-- Refinement of the master lemma when every per-product WooCommerce
    listing call succeeds: the error list is exactly the whole-stage
    contributions. -/
theorem pipeline_completes_exact (env : Env) (s0 : St) (hr : env.runSave = .ok ())
    (hp : env.productSave = .ok ())
    (hcl : ∀ i, ∃ k, env.createListing i = .ok k) :
    ∃ sF, pipelineBody env s0 = .ok sF ∧
      sF.run.status = "completed" ∧
      sF.calls = s0.calls ++
        ["scan", "autoSource", "bulkEnrich", "validate", "listingQuery", "airtable", "notify"] ∧
      sF.run.results.errors = s0.run.results.errors ++
        scanErr env ++ srcErr env ++ aiErr env ++ atErr env := by
  obtain ⟨s1, h1, he1, hc1⟩ := startSec_ok env s0 hr
  obtain ⟨s2, h2, he2, hc2, _⟩ := stage1_ok env s1 hr
  obtain ⟨s3, h3, he3, hc3, _⟩ := stage2_ok env s2 hr
  obtain ⟨s4, h4, he4, hc4, _⟩ := stage3_ok env s3 hr
  obtain ⟨s5, h5, he5, hc5, _⟩ := stage4_ok env s4 hr hp
  obtain ⟨s6, h6, he6, hc6, _⟩ := stage5_exact env s5 hr hp hcl
  obtain ⟨s7, h7, he7, hc7, _⟩ := stage6_ok env s6 hr
  obtain ⟨s8, h8, he8, hc8, hst8⟩ := completeSec_ok env s7 hr
  obtain ⟨hea, hca, hsta⟩ := autoListSec_props env s8 hr hp
  obtain ⟨hrn, hcn⟩ := notifySec_props env (autoListSec env s8)
  refine ⟨notifySec env (autoListSec env s8), ?_, ?_, ?_, ?_⟩
  · simp [pipelineBody, h1, h2, h3, h4, h5, h6, h7, h8]
  · rw [hrn, hsta, hst8]
  · simp [hcn, hca, hc8, hc7, hc6, hc5, hc4, hc3, hc2, hc1]
  · simp [hrn, hea, he8, he7, he6, he5, he4, he3, he2, he1]

end Pipeline

-- ============================================================
-- Theorems: stage isolation and completion (claims C2, C7)
-- ============================================================

/-- C2.  Stage isolation: in any run execution where exactly one
    whole-stage provider call throws (and persistence succeeds), every
    later stage still executes, exactly one entry naming the failed stage
    is appended to `results.errors`, and the run still ends `completed`
    with nothing rethrown; conversely an exception escaping all per-stage
    boundaries (a failing `run.save()`) marks the run `failed` and is
    rethrown to the caller. -/
theorem c2_stage_isolation :
    (∀ (env : Pipeline.Env) (s0 : Pipeline.St) (fs : Pipeline.FailedStage) (m : String),
      env.runSave = .ok () → env.productSave = .ok () →
      (∀ i, ∃ k, env.createListing i = .ok k) →
      Pipeline.failsOnly env fs m →
      s0.run.results.errors = [] →
      (Pipeline.executePipeline env s0).2 = none ∧
      (Pipeline.executePipeline env s0).1.run.status = "completed" ∧
      (Pipeline.executePipeline env s0).1.run.results.errors = [⟨Pipeline.stageLabel fs, m⟩] ∧
      (Pipeline.executePipeline env s0).1.calls = s0.calls ++
        ["scan", "autoSource", "bulkEnrich", "validate", "listingQuery", "airtable", "notify"]) ∧
    (∀ (env : Pipeline.Env) (s0 : Pipeline.St) (m : String),
      env.runSave = .error m →
      (Pipeline.executePipeline env s0).2 = some m ∧
      (Pipeline.executePipeline env s0).1.run.status = "failed") := by
  constructor
  · intro env s0 fs m hr hp hcl hfo he0
    obtain ⟨sF, hpb, hstat, hcalls, herr⟩ :=
      Pipeline.pipeline_completes_exact env s0 hr hp hcl
    rw [he0] at herr
    have hout : Pipeline.executePipeline env s0 = (sF, none) := by
      simp [Pipeline.executePipeline, hpb]
    refine ⟨by simp [hout], by simp [hout, hstat], ?_, by simp [hout, hcalls]⟩
    rw [hout]
    cases fs with
    | discovery =>
        obtain ⟨h1, ⟨n2, h2⟩, ⟨n3, h3⟩, h4⟩ := hfo
        simp [herr, Pipeline.scanErr, Pipeline.srcErr, Pipeline.aiErr, Pipeline.atErr,
          h1, h2, h3, h4, Pipeline.stageLabel]
    | sourcing =>
        obtain ⟨⟨ps, h1⟩, h2, ⟨n3, h3⟩, h4⟩ := hfo
        simp [herr, Pipeline.scanErr, Pipeline.srcErr, Pipeline.aiErr, Pipeline.atErr,
          h1, h2, h3, h4, Pipeline.stageLabel]
    | aiContent =>
        obtain ⟨⟨ps, h1⟩, ⟨n2, h2⟩, h3, h4⟩ := hfo
        simp [herr, Pipeline.scanErr, Pipeline.srcErr, Pipeline.aiErr, Pipeline.atErr,
          h1, h2, h3, h4, Pipeline.stageLabel]
    | airtable =>
        obtain ⟨⟨ps, h1⟩, ⟨n2, h2⟩, ⟨n3, h3⟩, h4⟩ := hfo
        simp [herr, Pipeline.scanErr, Pipeline.srcErr, Pipeline.aiErr, Pipeline.atErr,
          h1, h2, h3, h4, Pipeline.stageLabel]
  · intro env s0 m hr
    constructor <;>
      simp [Pipeline.executePipeline, Pipeline.pipelineBody, Pipeline.startSec,
        Pipeline.saveRun, hr, Pipeline.pushLog, Pipeline.setStatus]

/-- Witness for C2: a run whose stage-1 scan throws "timeout" finishes
    `completed` with that single error entry; a run whose saves fail is
    `failed`. -/
theorem c2_stage_isolation_witness :
    (Pipeline.executePipeline Pipeline.failingScanEnv Pipeline.emptySt).1.run.status = "completed" ∧
    (Pipeline.executePipeline Pipeline.failingScanEnv Pipeline.emptySt).1.run.results.errors =
      [⟨"trend_discovery", "timeout"⟩] ∧
    (Pipeline.executePipeline { Pipeline.failingScanEnv with runSave := .error "db down" }
      Pipeline.emptySt).1.run.status = "failed" := by
  have h1 := c2_stage_isolation.1 Pipeline.failingScanEnv Pipeline.emptySt .discovery "timeout"
    rfl rfl (fun i => ⟨0, rfl⟩) ⟨rfl, ⟨0, rfl⟩, ⟨0, rfl⟩, rfl⟩ rfl
  have h2 := c2_stage_isolation.2
    { Pipeline.failingScanEnv with runSave := .error "db down" } Pipeline.emptySt "db down" rfl
  exact ⟨h1.2.1, h1.2.2.1, h2.2⟩

/-- C7 counterexample: a completed run that auto-lists one new product
    makes zero `onProductLive` calls — `executePipeline` never notifies the
    Marketing Orchestrator per newly-listed item (that hook lives only in
    the separate auto-list webhook route). -/
theorem c7_counterexample :
    (Pipeline.executePipeline Pipeline.allOkEnv Pipeline.autoListSt).1.run.status = "completed" ∧
    (Pipeline.executePipeline Pipeline.allOkEnv Pipeline.autoListSt).1.run.results.productsAutoListed = 1 ∧
    (Pipeline.executePipeline Pipeline.allOkEnv Pipeline.autoListSt).1.calls.count "onProductLive" = 0 := by
  exact ⟨rfl, rfl, rfl⟩

/-- C7 (amended).  On completion the orchestrator emits exactly one summary
    notification to the external alerting channel, whose failure is never
    escalated (the run stays `completed`, nothing is rethrown, for every
    notify outcome); it performs no `onProductLive` calls at all. -/
theorem c7_completion_notify :
    ∀ (env : Pipeline.Env) (s0 : Pipeline.St),
      env.runSave = .ok () → env.productSave = .ok () → s0.calls = [] →
      (Pipeline.executePipeline env s0).2 = none ∧
      (Pipeline.executePipeline env s0).1.run.status = "completed" ∧
      (Pipeline.executePipeline env s0).1.calls.count "notify" = 1 ∧
      (Pipeline.executePipeline env s0).1.calls.count "onProductLive" = 0 := by
  intro env s0 hr hp hc0
  obtain ⟨sF, es, hpb, hstat, hcalls, herr⟩ := Pipeline.pipeline_completes env s0 hr hp
  have hout : Pipeline.executePipeline env s0 = (sF, none) := by
    simp [Pipeline.executePipeline, hpb]
  rw [hc0] at hcalls
  refine ⟨by simp [hout], by simp [hout, hstat], ?_, ?_⟩ <;>
    simp [hout, hcalls]

/-- Witness for C7 (amended): the concrete completed run makes exactly one
    summary-notification call. -/
theorem c7_completion_notify_witness :
    (Pipeline.executePipeline Pipeline.allOkEnv Pipeline.autoListSt).1.calls.count "notify" = 1 ∧
    (Pipeline.executePipeline Pipeline.allOkEnv Pipeline.autoListSt).1.run.status = "completed" := by
  have h := c7_completion_notify Pipeline.allOkEnv Pipeline.autoListSt rfl rfl rfl
  exact ⟨h.2.2.1, h.2.1⟩

-- ============================================================
-- Theorems: validation & scoring (claims C5, C6)
-- ============================================================

/-- C5 counterexample: stage 4 run over a catalog holding one candidate
    with `costUsd = 0` (margin 50%, score 90) leaves it completely
    untouched — its `rejectionReason` stays empty instead of becoming
    "No cost data", and nothing is counted as rejected — because the
    candidate query itself filters on `costUsd > 0`. -/
theorem c5_counterexample :
    (Pipeline.stage4 Pipeline.allOkEnv Pipeline.zeroCostSt).toOption.map
        (fun s => (s.db, s.run.results.productsRejected, s.run.results.productsValidated)) =
      some ([Pipeline.zeroCostProduct], 0, 0) ∧
    Pipeline.zeroCostProduct.costUsd = 0 ∧
    Pipeline.zeroCostProduct.pipeline.rejectionReason = "" := by
  exact ⟨rfl, rfl, rfl⟩

/-- C5 (amended).  The per-candidate decision chain does reject any item
    whose cost is non-positive with reason exactly "No cost data",
    short-circuiting the margin and score checks — but the stage-4
    candidate query selects only items with `costUsd > 0`, so a zero-cost
    item never reaches the decision and is not rejected in a run. -/
theorem c5_cost_check :
    (∀ p : Pipeline.Product, p.costUsd ≤ 0 →
      Pipeline.classify p = .reject "No cost data") ∧
    (∀ (db : List Pipeline.Product) (maxP : Nat) (p : Pipeline.Product),
      p ∈ Pipeline.stage4Candidates db maxP → 0 < p.costUsd) := by
  constructor
  · intro p h
    simp [Pipeline.classify, h]
  · intro db maxP p hmem
    have hmem' : p ∈ db.filter (fun p =>
        !p.pipeline.approved && (p.pipeline.rejectionReason == "")
          && p.isActive && decide (0 < p.costUsd)) :=
      List.take_subset _ _ hmem
    have hpred := (List.mem_filter.mp hmem').2
    simp only [Bool.and_eq_true, decide_eq_true_eq] at hpred
    exact hpred.2

/-- Witness for C5 (amended): the zero-cost candidate is classified
    "No cost data" despite margin 50 and score 90, and the worked example
    (cost 8) indeed satisfies the query's cost bound. -/
theorem c5_cost_check_witness :
    Pipeline.classify Pipeline.zeroCostProduct = .reject "No cost data" ∧
    (0 : Rat) < Pipeline.marginExample.costUsd := by
  refine ⟨c5_cost_check.1 Pipeline.zeroCostProduct (by decide), ?_⟩
  exact c5_cost_check.2 [Pipeline.marginExample] 50 Pipeline.marginExample (by decide)

/-- C6.  For a candidate that passes the cost, margin and supplier checks,
    the decision is approve iff `researchScore >= 30 OR marginPercent >=
    35`; in particular the spec's worked example (cost 8, margin 40,
    score 10, supplier url present) is approved. -/
theorem c6_approval_rule :
    (∀ p : Pipeline.Product, 0 < p.costUsd → ¬(p.profitMarginPercent < 20) →
      Pipeline.supplierTruthy p.supplier.url = true →
      (Pipeline.classify p = .approve ↔
        (30 ≤ p.pipeline.researchScore ∨ 35 ≤ p.profitMarginPercent))) ∧
    Pipeline.classify Pipeline.marginExample = .approve := by
  constructor
  · intro p hcost hmargin hsup
    have h1 : ¬(p.costUsd ≤ 0) := by exact not_le.mpr hcost
    simp only [Pipeline.classify, h1, if_false, hmargin, hsup]
    by_cases h : 30 ≤ p.pipeline.researchScore ∨ 35 ≤ p.profitMarginPercent <;>
      simp [h]
  · decide

/-- Witness for C6: the approval rule applied at the worked example. -/
theorem c6_approval_rule_witness :
    Pipeline.classify Pipeline.marginExample = .approve := by
  exact (c6_approval_rule.1 Pipeline.marginExample (by decide) (by decide)
    (by decide)).mpr (Or.inr (by decide))

-- ============================================================
-- Theorems: trend scoring (claim C8)
-- ============================================================

theorem ordersBonus_le (n : Nat) : Trend.ordersBonus n ≤ 25 := by
  unfold Trend.ordersBonus
  split_ifs <;> omega

theorem costBonus_le (c : Rat) : Trend.costBonus c ≤ 20 := by
  unfold Trend.costBonus
  split_ifs <;> omega

theorem categoryBonus_le (cat : String) : Trend.categoryBonus cat ≤ 10 := by
  unfold Trend.categoryBonus
  split_ifs <;> omega

/-- C8.  `scoreProduct` is a pure function — identical input always yields
    an identical score — and the score always lies in [0, 100]; the tier
    bonuses respect their advertised bounds (sales volume 0-25, cost band
    0-20, category 0-10). -/
theorem c8_score_range :
    (∀ p : Trend.TProduct,
      0 ≤ (Trend.scoreProduct p).trendScore ∧ (Trend.scoreProduct p).trendScore ≤ 100) ∧
    (∀ p q : Trend.TProduct, p = q → Trend.scoreProduct p = Trend.scoreProduct q) ∧
    (∀ n, Trend.ordersBonus n ≤ 25) ∧
    (∀ c, Trend.costBonus c ≤ 20) ∧
    (∀ cat, Trend.categoryBonus cat ≤ 10) := by
  refine ⟨?_, ?_, ordersBonus_le, costBonus_le, categoryBonus_le⟩
  · intro p
    refine ⟨Nat.zero_le _, ?_⟩
    simp only [Trend.scoreProduct]
    exact Nat.min_le_right _ _
  · intro p q h
    rw [h]

/-- Witness for C8: applied at the concrete CJ-like scanned product. -/
theorem c8_score_range_witness :
    (Trend.scoreProduct Trend.scanExample).trendScore ≤ 100 ∧
    Trend.scoreProduct Trend.scanExample = Trend.scoreProduct Trend.scanExample ∧
    (Trend.scoreProduct Trend.scanExample).trendScore = 75 := by
  exact ⟨((c8_score_range.1 Trend.scanExample).2),
    c8_score_range.2.1 Trend.scanExample Trend.scanExample rfl, rfl⟩

-- ============================================================
-- Theorems: social cooldown gate (claim C4)
-- ============================================================

namespace Social

theorem ig_preserves (p : Poster) (env : SEnv) (now : Nat) (prod : SProduct) :
    ((postToInstagram p env now prod).2.1).lastPostTime.facebook = p.lastPostTime.facebook ∧
    ((postToInstagram p env now prod).2.1).lastPostTime.pinterest = p.lastPostTime.pinterest := by
  unfold postToInstagram
  split_ifs
  · exact ⟨rfl, rfl⟩
  · exact ⟨rfl, rfl⟩
  · cases himg : imageOf prod with
    | none => exact ⟨rfl, rfl⟩
    | some u =>
        cases hic : env.igCreate with
        | error m => exact ⟨rfl, rfl⟩
        | ok o =>
            cases o with
            | none => exact ⟨rfl, rfl⟩
            | some cid =>
                cases hip : env.igPublish with
                | error m => exact ⟨rfl, rfl⟩
                | ok pid => simp [markPosted, Cooldowns.set]

theorem fb_preserves (p : Poster) (env : SEnv) (now : Nat) (prod : SProduct) :
    ((postToFacebook p env now prod).2.1).lastPostTime.pinterest = p.lastPostTime.pinterest := by
  unfold postToFacebook
  split_ifs
  · rfl
  · rfl
  · cases hfb : env.fbPost with
    | error m => rfl
    | ok pid => simp [markPosted, Cooldowns.set]

theorem ig_no_rl (p : Poster) (env : SEnv) (now : Nat) (prod : SProduct)
    (h0 : p.lastPostTime.instagram = none) (hnow : minPostIntervalMs ≤ now)
    (hrl1 : ∀ m, env.igCreate = .error m → m ≠ "rate_limited")
    (hrl2 : ∀ m, env.igPublish = .error m → m ≠ "rate_limited") :
    (postToInstagram p env now prod).1.reason ≠ some "rate_limited" := by
  have hcp : canPost p now .instagram = true := by
    simp [canPost, Cooldowns.get, h0]
    omega
  unfold postToInstagram
  split_ifs with h1 h2
  · simp
  · simp [hcp] at h2
  · cases himg : imageOf prod with
    | none => simp
    | some u =>
        cases hic : env.igCreate with
        | error m => simpa using hrl1 m hic
        | ok o =>
            cases o with
            | none => simp
            | some cid =>
                cases hip : env.igPublish with
                | error m => simpa using hrl2 m hip
                | ok pid => simp

theorem fb_no_rl (p : Poster) (env : SEnv) (now : Nat) (prod : SProduct)
    (h0 : p.lastPostTime.facebook = none) (hnow : minPostIntervalMs ≤ now)
    (hrl : ∀ m, env.fbPost = .error m → m ≠ "rate_limited") :
    (postToFacebook p env now prod).1.reason ≠ some "rate_limited" := by
  have hcp : canPost p now .facebook = true := by
    simp [canPost, Cooldowns.get, h0]
    omega
  unfold postToFacebook
  split_ifs with h1 h2
  · simp
  · simp [hcp] at h2
  · cases hfb : env.fbPost with
    | error m => simpa using hrl m hfb
    | ok pid => simp

theorem pin_no_rl (p : Poster) (env : SEnv) (now : Nat) (prod : SProduct)
    (h0 : p.lastPostTime.pinterest = none) (hnow : minPostIntervalMs ≤ now)
    (hrl : ∀ m, env.pinPost = .error m → m ≠ "rate_limited") :
    (postToPinterest p env now prod).1.reason ≠ some "rate_limited" := by
  have hcp : canPost p now .pinterest = true := by
    simp [canPost, Cooldowns.get, h0]
    omega
  unfold postToPinterest
  split_ifs with h1 h2
  · simp
  · simp [hcp] at h2
  · cases himg : imageOf prod with
    | none => simp
    | some u =>
        cases hpin : env.pinPost with
        | error m => simpa using hrl m hpin
        | ok pid => simp

theorem postProductToAll_fields (p : Poster) (env : SEnv) (now : Nat) (prod : SProduct) :
    (postProductToAll p env now prod).1.instagram = (postToInstagram p env now prod).1 ∧
    (postProductToAll p env now prod).1.facebook =
      (postToFacebook (postToInstagram p env now prod).2.1 env now prod).1 ∧
    (postProductToAll p env now prod).1.pinterest =
      (postToPinterest (postToFacebook (postToInstagram p env now prod).2.1 env now prod).2.1
        env now prod).1 := by
  exact ⟨rfl, rfl, rfl⟩

end Social

/-- C4.  Cooldown gate: for each channel, if the channel is configured and
    its previous successful post is less than the 2-hour window old, the
    rate-limited posting path returns `{success: false, reason:
    'rate_limited'}` unchanged state and performs zero network calls; and
    the forced-post path, which clears all cooldown timestamps first,
    never returns `rate_limited` on any channel (given that the epoch
    clock is past the window length and no provider error message equals
    the literal "rate_limited"). -/
theorem c4_cooldown_gate :
    (∀ (p : Social.Poster) (env : Social.SEnv) (now : Nat) (prod : Social.SProduct) (t : Nat),
      p.igEnabled = true → p.lastPostTime.instagram = some t →
      now - t < Social.minPostIntervalMs →
      Social.postToInstagram p env now prod =
        ({ success := false, reason := some "rate_limited" }, p, 0)) ∧
    (∀ (p : Social.Poster) (env : Social.SEnv) (now : Nat) (prod : Social.SProduct) (t : Nat),
      p.metaEnabled = true → p.lastPostTime.facebook = some t →
      now - t < Social.minPostIntervalMs →
      Social.postToFacebook p env now prod =
        ({ success := false, reason := some "rate_limited" }, p, 0)) ∧
    (∀ (p : Social.Poster) (env : Social.SEnv) (now : Nat) (prod : Social.SProduct) (t : Nat),
      p.pinterestEnabled = true → p.lastPostTime.pinterest = some t →
      now - t < Social.minPostIntervalMs →
      Social.postToPinterest p env now prod =
        ({ success := false, reason := some "rate_limited" }, p, 0)) ∧
    (∀ (p : Social.Poster) (env : Social.SEnv) (now : Nat) (prod : Social.SProduct),
      Social.minPostIntervalMs ≤ now → Social.noRLErrors env →
      (Social.forcePostProduct p env now prod).1.instagram.reason ≠ some "rate_limited" ∧
      (Social.forcePostProduct p env now prod).1.facebook.reason ≠ some "rate_limited" ∧
      (Social.forcePostProduct p env now prod).1.pinterest.reason ≠ some "rate_limited") := by
  refine ⟨?_, ?_, ?_, ?_⟩
  · intro p env now prod t hen ht hlt
    have hcp : Social.canPost p now .instagram = false := by
      simp [Social.canPost, Social.Cooldowns.get, ht]
      omega
    simp [Social.postToInstagram, hen, hcp]
  · intro p env now prod t hen ht hlt
    have hcp : Social.canPost p now .facebook = false := by
      simp [Social.canPost, Social.Cooldowns.get, ht]
      omega
    simp [Social.postToFacebook, hen, hcp]
  · intro p env now prod t hen ht hlt
    have hcp : Social.canPost p now .pinterest = false := by
      simp [Social.canPost, Social.Cooldowns.get, ht]
      omega
    simp [Social.postToPinterest, hen, hcp]
  · intro p env now prod hnow hnr
    obtain ⟨hrl1, hrl2, hrl3, hrl4⟩ := hnr
    obtain ⟨hfi, hff, hfp⟩ := Social.postProductToAll_fields
      { p with lastPostTime := {} } env now prod
    have hig0 : ({ p with lastPostTime := {} } : Social.Poster).lastPostTime.instagram
        = none := rfl
    have hfb0 := (Social.ig_preserves { p with lastPostTime := {} } env now prod).1
    have hpin0a := (Social.ig_preserves { p with lastPostTime := {} } env now prod).2
    have hpin0b := Social.fb_preserves
      (Social.postToInstagram { p with lastPostTime := {} } env now prod).2.1 env now prod
    refine ⟨?_, ?_, ?_⟩
    · rw [Social.forcePostProduct, hfi]
      exact Social.ig_no_rl _ env now prod hig0 hnow hrl1 hrl2
    · rw [Social.forcePostProduct, hff]
      refine Social.fb_no_rl _ env now prod ?_ hnow hrl3
      rw [hfb0]
    · rw [Social.forcePostProduct, hfp]
      refine Social.pin_no_rl _ env now prod ?_ hnow hrl4
      rw [hpin0b, hpin0a]

/-- Witness for C4: Instagram was posted to 1000 ms before `now = 2000`, so
    a rate-limited attempt is refused with zero network calls; the forced
    path at a realistic clock never reports `rate_limited`. -/
theorem c4_cooldown_gate_witness :
    Social.postToInstagram Social.recentIgPoster {} 2000 Social.bareProduct =
      ({ success := false, reason := some "rate_limited" }, Social.recentIgPoster, 0) ∧
    (Social.forcePostProduct Social.recentIgPoster {} 1700000000000
      Social.bareProduct).1.instagram.reason ≠ some "rate_limited" := by
  constructor
  · exact c4_cooldown_gate.1 Social.recentIgPoster {} 2000 Social.bareProduct 1000
      rfl rfl (by decide)
  · exact (c4_cooldown_gate.2.2.2 Social.recentIgPoster {} 1700000000000
      Social.bareProduct (by decide)
      ⟨fun m h => by simp at h, fun m h => by simp at h,
        fun m h => by simp at h, fun m h => by simp at h⟩).1

-- ============================================================
-- Theorems: content store lemmas (shared by C3, C9, C10)
-- ============================================================

namespace Marketing

theorem findContent_cid : ∀ (l : List Content) (i : Nat) (c : Content),
    findContent l i = some c → c.cid = i := by
  intro l
  induction l with
  | nil => intro i c hf; simp [findContent] at hf
  | cons a as ih =>
      intro i c hf
      by_cases ha : (a.cid == i) = true
      · simp only [findContent, ha, if_true, Option.some.injEq] at hf
        subst hf
        simpa using ha
      · have ha' : (a.cid == i) = false := by simpa using ha
        simp only [findContent, ha', if_false, Bool.false_eq_true] at hf
        exact ih i c hf

theorem findContent_update (c : Content) :
    ∀ (l : List Content) (c0 : Content), findContent l c.cid = some c0 →
      findContent (updateContent l c) c.cid = some c := by
  intro l
  induction l with
  | nil => intro c0 hf; simp [findContent] at hf
  | cons a as ih =>
      intro c0 hf
      simp only [findContent, updateContent, List.map_cons] at hf ⊢
      by_cases ha : (a.cid == c.cid) = true
      · rw [if_pos ha]
        simp [findContent]
      · have ha' : (a.cid == c.cid) = false := by simpa using ha
        rw [if_neg (by simp [ha'])]
        simp only [ha', Bool.false_eq_true, if_false] at hf
        simpa [updateContent] using ih c0 hf

theorem findContent_update_none (c : Content) (j : Nat) (hne : c.cid ≠ j) :
    ∀ l : List Content, findContent l j = none →
      findContent (updateContent l c) j = none := by
  intro l
  induction l with
  | nil => intro _; simp [findContent, updateContent]
  | cons a as ih =>
      intro hf
      have hcj : (c.cid == j) = false := by simpa using hne
      by_cases haj : (a.cid == j) = true
      · simp [findContent, haj] at hf
      · have haj' : (a.cid == j) = false := by simpa using haj
        simp only [findContent, haj', if_false, Bool.false_eq_true] at hf
        simp only [updateContent, List.map_cons]
        by_cases hac : (a.cid == c.cid) = true
        · rw [if_pos hac]
          simp only [findContent, hcj, if_false]
          simpa [updateContent] using ih hf
        · have hac' : (a.cid == c.cid) = false := by simpa using hac
          rw [if_neg (by simp [hac'])]
          simp only [findContent, haj', if_false]
          simpa [updateContent] using ih hf

theorem updateContent_of_none (c : Content) :
    ∀ l : List Content, findContent l c.cid = none → updateContent l c = l := by
  intro l
  induction l with
  | nil => intro _; rfl
  | cons a as ih =>
      intro hf
      by_cases ha : (a.cid == c.cid) = true
      · simp [findContent, ha] at hf
      · have ha' : (a.cid == c.cid) = false := by simpa using ha
        simp only [findContent, ha', if_false, Bool.false_eq_true] at hf
        simp only [updateContent, List.map_cons]
        rw [if_neg (by simp [ha'])]
        have := ih hf
        simp only [updateContent] at this
        rw [this]

theorem updateContent_append (l r : List Content) (c : Content) :
    updateContent (l ++ r) c = updateContent l c ++ updateContent r c := by
  simp [updateContent]

theorem findContent_append_left : ∀ (l : List Content) (r : List Content) (i : Nat)
    (c : Content), findContent l i = some c → findContent (l ++ r) i = some c := by
  intro l
  induction l with
  | nil => intro r i c hf; simp [findContent] at hf
  | cons a as ih =>
      intro r i c hf
      by_cases ha : (a.cid == i) = true
      · simp only [findContent, ha, if_true, Option.some.injEq] at hf
        subst hf
        simp [findContent, ha]
      · have ha' : (a.cid == i) = false := by simpa using ha
        simp only [findContent, ha', if_false, Bool.false_eq_true] at hf
        simpa [findContent, ha'] using ih r i c hf

theorem findContent_append_none : ∀ (l : List Content) (r : List Content) (i : Nat),
    findContent l i = none → findContent (l ++ r) i = findContent r i := by
  intro l
  induction l with
  | nil => intro r i _; rfl
  | cons a as ih =>
      intro r i hf
      by_cases ha : (a.cid == i) = true
      · simp [findContent, ha] at hf
      · have ha' : (a.cid == i) = false := by simpa using ha
        simp only [findContent, ha', if_false, Bool.false_eq_true] at hf
        simpa [findContent, ha'] using ih r i hf

theorem length_updateContent (l : List Content) (c : Content) :
    (updateContent l c).length = l.length := by
  simp [updateContent]

end Marketing

-- ============================================================
-- Theorems: content approval / rejection (claims C3, C10)
-- ============================================================

/-- C3 counterexample: `rejectContent` on an item already in the terminal
    `posted` state succeeds and mutates it to `rejected` — it does not fail
    on items outside `pending_approval`. -/
theorem c3_counterexample :
    Marketing.rejectContent [Marketing.postedItem] 7 "changed my mind" =
      .ok (true, [{ Marketing.postedItem with
                    status := "rejected", rejectedAt := true,
                    rejectionReason := "changed my mind" }]) ∧
    Marketing.postedItem.status = "posted" := by
  exact ⟨rfl, rfl⟩

/-- C3 (amended).  `approveContent` on an item whose status is not
    `pending_approval` throws without producing any mutated store;
    `rejectContent` checks only that the item exists: on any found item,
    whatever its status, it succeeds and persists `rejected` with the given
    reason. -/
theorem c3_content_guards :
    (∀ (post : Except String (List (String × Bool))) (store : List Marketing.Content)
        (i : Nat) (c : Marketing.Content),
      Marketing.findContent store i = some c → c.status ≠ "pending_approval" →
      Marketing.approveContent post store i =
        .error ("Cannot approve content with status: " ++ c.status)) ∧
    (∀ (store : List Marketing.Content) (i : Nat) (reason : String) (c : Marketing.Content),
      Marketing.findContent store i = some c →
      ∃ store', Marketing.rejectContent store i reason = .ok (true, store') ∧
        Marketing.findContent store' i =
          some { c with
                 status := "rejected", rejectedAt := true,
                 rejectionReason := reason }) := by
  constructor
  · intro post store i c hf hne
    simp [Marketing.approveContent, hf, hne]
  · intro store i reason c hf
    have hcid : c.cid = i := Marketing.findContent_cid store i c hf
    subst hcid
    refine ⟨Marketing.updateContent store
      { c with status := "rejected", rejectedAt := true, rejectionReason := reason },
      ?_, ?_⟩
    · simp [Marketing.rejectContent, hf]
    · exact Marketing.findContent_update
        { c with status := "rejected", rejectedAt := true, rejectionReason := reason }
        store c hf

/-- Witness for C3 (amended): approving the posted item throws; rejecting
    the pending item mutates it to rejected. -/
theorem c3_content_guards_witness :
    Marketing.approveContent (.ok []) [Marketing.postedItem] 7 =
      .error "Cannot approve content with status: posted" ∧
    (∃ store', Marketing.rejectContent [Marketing.pendingItem] 9 "off brand" =
        .ok (true, store') ∧
      Marketing.findContent store' 9 =
        some { Marketing.pendingItem with
               status := "rejected", rejectedAt := true,
               rejectionReason := "off brand" }) := by
  constructor
  · exact c3_content_guards.1 (.ok []) [Marketing.postedItem] 7 Marketing.postedItem
      rfl (by decide)
  · exact c3_content_guards.2 [Marketing.pendingItem] 9 "off brand"
      Marketing.pendingItem rfl

/-- C10.  If `approveContent` moves an item out of `pending_approval` but
    the multi-channel post then throws, the stored item stays `approved`
    with `approvedAt` set (neither reverted nor advanced), and the call
    returns `{success: false, error}` instead of throwing. -/
theorem c10_approve_post_failure :
    ∀ (store : List Marketing.Content) (i : Nat) (c : Marketing.Content) (m : String),
      Marketing.findContent store i = some c → c.status = "pending_approval" →
      ∃ store', Marketing.approveContent (.error m) store i =
          .ok ({ success := false, error := some m }, store') ∧
        Marketing.findContent store' i =
          some { c with status := "approved", approvedAt := true } := by
  intro store i c m hf hst
  have hcid : c.cid = i := Marketing.findContent_cid store i c hf
  subst hcid
  refine ⟨Marketing.updateContent store
    { c with status := "approved", approvedAt := true }, ?_, ?_⟩
  · simp [Marketing.approveContent, hf, hst]
  · exact Marketing.findContent_update
      { c with status := "approved", approvedAt := true } store c hf

/-- Witness for C10: the pending item approved while every channel throws
    "network down" stays `approved`. -/
theorem c10_approve_post_failure_witness :
    ∃ store', Marketing.approveContent (.error "network down")
        [Marketing.pendingItem] 9 =
        .ok ({ success := false, error := some "network down" }, store') ∧
      Marketing.findContent store' 9 =
        some { Marketing.pendingItem with status := "approved", approvedAt := true } := by
  exact c10_approve_post_failure [Marketing.pendingItem] 9 Marketing.pendingItem
    "network down" rfl rfl

-- ============================================================
-- Theorems: content regeneration (claim C9)
-- ============================================================

/-- C9.  `regenerateContent` on an existing content item whose product
    exists always persists the prior item as `rejected` with reason exactly
    "Regenerated", and creates exactly one new content item for the same
    product (the store grows by one, the new document carries an
    incremented `regenerationCount` and a back-reference to the prior
    item); the new item ends `pending_approval` and is returned when
    generation succeeds, or ends `failed` with the error rethrown when
    generation fails. -/
theorem c9_regenerate :
    ∀ (gen : Except String Marketing.GenContent) (newId : Nat)
      (store : List Marketing.Content) (products : List Pipeline.Product)
      (i : Nat) (old : Marketing.Content) (product : Pipeline.Product),
      Marketing.findContent store i = some old →
      products.find? (fun p => p.pid == old.productId) = some product →
      Marketing.findContent store newId = none →
      (Marketing.regenerateContent gen newId store products i).1.length = store.length + 1 ∧
      Marketing.findContent (Marketing.regenerateContent gen newId store products i).1 i =
        some (Marketing.rejectedOld old) ∧
      (∃ d, Marketing.findContent
          (Marketing.regenerateContent gen newId store products i).1 newId = some d ∧
        d.productId = product.pid ∧
        d.regenerationCount = old.regenerationCount + 1 ∧
        d.regeneratedFrom = some old.cid ∧
        ((∃ g, gen = .ok g ∧ d.status = "pending_approval" ∧
            (Marketing.regenerateContent gen newId store products i).2 = .ok d) ∨
         (∃ m, gen = .error m ∧ d.status = "failed" ∧
            (Marketing.regenerateContent gen newId store products i).2 = .error m))) := by
  intro gen newId store products i old product hf hpp hfresh
  have hcid : old.cid = i := Marketing.findContent_cid store i old hf
  subst hcid
  have hne : old.cid ≠ newId := by
    intro h
    rw [h, hfresh] at hf
    exact Option.noConfusion hf
  have h1 : Marketing.findContent
      (Marketing.updateContent store (Marketing.rejectedOld old)) old.cid =
      some (Marketing.rejectedOld old) :=
    Marketing.findContent_update (Marketing.rejectedOld old) store old hf
  have hnone1 : Marketing.findContent
      (Marketing.updateContent store (Marketing.rejectedOld old)) newId = none :=
    Marketing.findContent_update_none (Marketing.rejectedOld old) newId
      (by simpa [Marketing.rejectedOld] using hne) store hfresh
  cases gen with
  | ok g =>
      have hskip : Marketing.updateContent
          (Marketing.updateContent store (Marketing.rejectedOld old))
          (Marketing.completedContent (Marketing.freshContent newId old product) g) =
          Marketing.updateContent store (Marketing.rejectedOld old) :=
        Marketing.updateContent_of_none _ _ hnone1
      have hsingle : Marketing.updateContent [Marketing.freshContent newId old product]
          (Marketing.completedContent (Marketing.freshContent newId old product) g) =
          [Marketing.completedContent (Marketing.freshContent newId old product) g] := by
        simp [Marketing.updateContent, Marketing.completedContent, Marketing.freshContent]
      simp only [Marketing.regenerateContent, hf, hpp,
        Marketing.updateContent_append, hskip, hsingle]
      refine ⟨?_, ?_, ?_⟩
      · simp [Marketing.length_updateContent]
      · exact Marketing.findContent_append_left _ _ _ _ h1
      · refine ⟨Marketing.completedContent (Marketing.freshContent newId old product) g,
          ?_, rfl, rfl, rfl, Or.inl ⟨g, rfl, rfl, rfl⟩⟩
        rw [Marketing.findContent_append_none _ _ _ hnone1]
        simp [Marketing.findContent, Marketing.completedContent, Marketing.freshContent]
  | error m =>
      have hskip : Marketing.updateContent
          (Marketing.updateContent store (Marketing.rejectedOld old))
          (Marketing.failedContent (Marketing.freshContent newId old product) m) =
          Marketing.updateContent store (Marketing.rejectedOld old) :=
        Marketing.updateContent_of_none _ _ hnone1
      have hsingle : Marketing.updateContent [Marketing.freshContent newId old product]
          (Marketing.failedContent (Marketing.freshContent newId old product) m) =
          [Marketing.failedContent (Marketing.freshContent newId old product) m] := by
        simp [Marketing.updateContent, Marketing.failedContent, Marketing.freshContent]
      simp only [Marketing.regenerateContent, hf, hpp,
        Marketing.updateContent_append, hskip, hsingle]
      refine ⟨?_, ?_, ?_⟩
      · simp [Marketing.length_updateContent]
      · exact Marketing.findContent_append_left _ _ _ _ h1
      · refine ⟨Marketing.failedContent (Marketing.freshContent newId old product) m,
          ?_, rfl, rfl, rfl, Or.inr ⟨m, rfl, rfl, rfl⟩⟩
        rw [Marketing.findContent_append_none _ _ _ hnone1]
        simp [Marketing.findContent, Marketing.failedContent, Marketing.freshContent]

/-- Witness for C9: regenerating the pending item for the demo product with
    a successful generation run. -/
theorem c9_regenerate_witness :
    (Marketing.regenerateContent (.ok { caption := "fresh copy" }) 10
      [Marketing.pendingItem] [Marketing.demoProduct] 9).1.length = 2 ∧
    Marketing.findContent (Marketing.regenerateContent (.ok { caption := "fresh copy" }) 10
      [Marketing.pendingItem] [Marketing.demoProduct] 9).1 9 =
      some (Marketing.rejectedOld Marketing.pendingItem) := by
  have h := c9_regenerate (.ok { caption := "fresh copy" }) 10
    [Marketing.pendingItem] [Marketing.demoProduct] 9
    Marketing.pendingItem Marketing.demoProduct rfl rfl rfl
  exact ⟨h.1, h.2.1⟩
